import Mathlib

/-!
Verification of the turn-orchestration core of the Ex3 voice agent.

The development shallowly embeds the Python sources:
  * src/state.py  : ConversationState (bounded conversation memory)
  * src/asr.py    : speech-to-text dispatch (google / whisper engines)
  * src/llm.py    : reply generation dispatch (hf / ollama backends)
  * main.py       : the HTTP endpoint orchestration over a shared state

Mutable state becomes explicit state passing; Python exceptions become
Except results; float confidence constants become exact rationals.
-/

namespace VoiceAgent

/-- Message roles, as the "role" field of the message dicts in state.py. -/
inductive Role where
  | system
  | user
  | assistant
deriving DecidableEq, Repr

/-- A chat message: the dict with role and content built in state.py. -/
structure Message where
  role : Role
  content : String
deriving DecidableEq, Repr

/-- The default system prompt from ConversationState.__init__ in state.py. -/
def defaultSystemPrompt : String :=
  "You are a helpful, concise voice assistant. " ++
  "Keep replies short (1-3 sentences) and ask clarifying questions when needed."

/-- ConversationState from state.py: max_turns, system_prompt and the history
deque (front of the list = oldest message).  The claims under verification fix
max_turns to be nonnegative, so it is modelled as Nat. -/
structure ConversationState where
  max_turns : Nat
  system_prompt : String
  history : List Message
deriving DecidableEq, Repr

/-- ConversationState.__init__: the Python expression system_prompt or default
falls back to the default when the argument is None or the empty string. -/
def mkConversationState (max_turns : Nat) (system_prompt : Option String) :
    ConversationState :=
  { max_turns := max_turns
    system_prompt :=
      match system_prompt with
      | none => defaultSystemPrompt
      | some s => if s = "" then defaultSystemPrompt else s
    history := [] }

/-- The while-loop body of ConversationState._trim: while the length exceeds
max_turns * 2, popleft removes the oldest element. -/
def trimGo (mt : Nat) : List α → List α
  | [] => []
  | m :: rest => if rest.length + 1 > mt * 2 then trimGo mt rest else m :: rest

/-- ConversationState._trim from state.py. -/
def _trim (s : ConversationState) : ConversationState :=
  { s with history := trimGo s.max_turns s.history }

/-- ConversationState.reset from state.py: clears the history deque. -/
def reset (s : ConversationState) : ConversationState :=
  { s with history := [] }

/-- ConversationState.add_user from state.py: append then trim. -/
def add_user (text : String) (s : ConversationState) : ConversationState :=
  _trim { s with history := s.history ++ [{ role := Role.user, content := text }] }

/-- ConversationState.add_assistant from state.py: append then trim. -/
def add_assistant (text : String) (s : ConversationState) : ConversationState :=
  _trim { s with history := s.history ++ [{ role := Role.assistant, content := text }] }

/-- ConversationState.get_messages from state.py: a fresh list holding the
system message followed by the whole history. -/
def get_messages (s : ConversationState) : List Message :=
  { role := Role.system, content := s.system_prompt } :: s.history

/-- One mutating call on the state: an add_user or add_assistant invocation. -/
inductive AddEvent where
  | user (text : String)
  | assistant (text : String)
deriving DecidableEq, Repr

/-- Apply one add call. -/
def stepAdd (s : ConversationState) (e : AddEvent) : ConversationState :=
  match e with
  | AddEvent.user t => add_user t s
  | AddEvent.assistant t => add_assistant t s

/-- Apply a sequence of add calls, oldest first. -/
def runAdds (s : ConversationState) (es : List AddEvent) : ConversationState :=
  es.foldl stepAdd s

/-- The message a single add call appends. -/
def eventMessage : AddEvent → Message
  | AddEvent.user t => { role := Role.user, content := t }
  | AddEvent.assistant t => { role := Role.assistant, content := t }

/-- The newest n elements of a list. -/
def lastN (n : Nat) (l : List α) : List α :=
  l.drop (l.length - n)

-- Basic facts about trimGo and lastN.

theorem trimGo_eq_lastN (mt : Nat) (l : List α) :
    trimGo mt l = lastN (mt * 2) l := by
  induction l with
  | nil => simp [trimGo, lastN]
  | cons m rest ih =>
    simp only [trimGo]
    by_cases h : rest.length + 1 > mt * 2
    · rw [if_pos h, ih]
      have hx : (m :: rest).length - mt * 2 = (rest.length - mt * 2) + 1 := by
        simp only [List.length_cons]; omega
      simp only [lastN, hx, List.drop_succ_cons]
    · rw [if_neg h]
      have hx : rest.length + 1 - mt * 2 = 0 := by omega
      simp [lastN, hx]

theorem length_lastN (n : Nat) (l : List α) : (lastN n l).length ≤ n := by
  simp only [lastN, List.length_drop]; omega

theorem lastN_lastN_append (n : Nat) (l l2 : List α) :
    lastN n (lastN n l ++ l2) = lastN n (l ++ l2) := by
  have hdrop : lastN n l ++ l2 = (l ++ l2).drop (l.length - n) := by
    simp only [lastN]
    rw [List.drop_append_of_le_length (by omega)]
  have hlen2 : (lastN n l ++ l2).length = l.length + l2.length - (l.length - n) := by
    simp only [List.length_append, lastN, List.length_drop]; omega
  rw [lastN, hlen2, hdrop, List.drop_drop, lastN, List.length_append]
  congr 1
  omega

theorem lastN_of_le (n : Nat) (l : List α) (h : l.length ≤ n) : lastN n l = l := by
  simp only [lastN]
  rw [Nat.sub_eq_zero_of_le h, List.drop_zero]

-- Facts about single add calls and sequences thereof.

theorem stepAdd_max_turns (s : ConversationState) (e : AddEvent) :
    (stepAdd s e).max_turns = s.max_turns := by
  cases e <;> rfl

theorem stepAdd_system_prompt (s : ConversationState) (e : AddEvent) :
    (stepAdd s e).system_prompt = s.system_prompt := by
  cases e <;> rfl

theorem stepAdd_history (s : ConversationState) (e : AddEvent) :
    (stepAdd s e).history =
      lastN (s.max_turns * 2) (s.history ++ [eventMessage e]) := by
  cases e <;> simp [stepAdd, add_user, add_assistant, _trim, eventMessage,
    trimGo_eq_lastN]

theorem runAdds_max_turns (s : ConversationState) (es : List AddEvent) :
    (runAdds s es).max_turns = s.max_turns := by
  induction es generalizing s with
  | nil => rfl
  | cons e es ih =>
    show (runAdds (stepAdd s e) es).max_turns = s.max_turns
    rw [ih, stepAdd_max_turns]

theorem runAdds_system_prompt (s : ConversationState) (es : List AddEvent) :
    (runAdds s es).system_prompt = s.system_prompt := by
  induction es generalizing s with
  | nil => rfl
  | cons e es ih =>
    show (runAdds (stepAdd s e) es).system_prompt = s.system_prompt
    rw [ih, stepAdd_system_prompt]

/-- The history after a run of add calls is exactly the newest
max_turns * 2 of the previous history followed by the appended messages,
provided the starting history already satisfies the bound. -/
theorem runAdds_history (es : List AddEvent) (s : ConversationState)
    (h : s.history.length ≤ s.max_turns * 2) :
    (runAdds s es).history =
      lastN (s.max_turns * 2) (s.history ++ es.map eventMessage) := by
  induction es generalizing s with
  | nil =>
    show s.history = lastN (s.max_turns * 2) (s.history ++ [])
    rw [List.append_nil, lastN_of_le _ _ h]
  | cons e es ih =>
    show (runAdds (stepAdd s e) es).history = _
    have hb : (stepAdd s e).history.length ≤ (stepAdd s e).max_turns * 2 := by
      rw [stepAdd_history, stepAdd_max_turns]
      exact length_lastN _ _
    rw [ih (stepAdd s e) hb, stepAdd_history, stepAdd_max_turns,
      lastN_lastN_append, List.append_assoc]
    rfl

/-- C1: after every add_user/add_assistant call on any ConversationState
(max_turns is a Nat, hence nonnegative), len(history) <= 2 * max_turns; since
a state reached after a nonempty call sequence is itself of the form
runAdds s (e :: es), the bound holds after every intermediate call as well.
In particular, with max_turns = 0 the history is empty after any call. -/
theorem history_length_bounded :
    (∀ (s : ConversationState) (e : AddEvent) (es : List AddEvent),
      (runAdds s (e :: es)).history.length ≤ 2 * s.max_turns) ∧
    (∀ (sp : Option String) (e : AddEvent) (es : List AddEvent),
      (runAdds (mkConversationState 0 sp) (e :: es)).history.length = 0) := by
  have key : ∀ (s : ConversationState) (e : AddEvent) (es : List AddEvent),
      (runAdds s (e :: es)).history.length ≤ 2 * s.max_turns := by
    intro s e es
    have hb : (stepAdd s e).history.length ≤ (stepAdd s e).max_turns * 2 := by
      rw [stepAdd_history, stepAdd_max_turns]
      exact length_lastN _ _
    have hrun := runAdds_history es (stepAdd s e) hb
    show (runAdds (stepAdd s e) es).history.length ≤ 2 * s.max_turns
    rw [hrun, stepAdd_max_turns]
    calc (lastN (s.max_turns * 2) _).length ≤ s.max_turns * 2 := length_lastN _ _
      _ = 2 * s.max_turns := Nat.mul_comm _ _
  refine ⟨key, fun sp e es => ?_⟩
  have h := key (mkConversationState 0 sp) e es
  have h0 : (mkConversationState 0 sp).max_turns = 0 := rfl
  rw [h0] at h
  omega

/-- C2 counterexample: the claim asserts that the last element of a snapshot
taken right after add_user("x") is the user message "x"; with max_turns = 0,
the freshly appended user message is immediately trimmed away, so the last
element of the snapshot is the system message instead. -/
theorem snapshot_last_counterexample :
    (get_messages (add_user "x" (mkConversationState 0 none))).getLast? =
      some { role := Role.system, content := defaultSystemPrompt } ∧
    (get_messages (add_user "x" (mkConversationState 0 none))).getLast? ≠
      some { role := Role.user, content := "x" } := by
  constructor
  · rfl
  · decide

/-- As long as max_turns >= 1, the history right after add_user(x) ends with
the user message x: the trim drops only from the front and keeps at least
the newest message. -/
theorem add_user_history_getLast (s : ConversationState) (x : String)
    (hmt : 1 ≤ s.max_turns) :
    (add_user x s).history.getLast? =
      some { role := Role.user, content := x } := by
  simp only [add_user, _trim]
  rw [trimGo_eq_lastN, lastN]
  have hk : (s.history ++ [({ role := Role.user, content := x } : Message)]).length -
      s.max_turns * 2 ≤ s.history.length := by
    simp only [List.length_append, List.length_cons, List.length_nil]
    omega
  rw [List.drop_append_of_le_length hk]
  exact List.getLast?_concat _

/-- C2 amended: after any sequence of add_user/add_assistant calls starting
from a fresh ConversationState, the stored history is exactly the newest
max_turns * 2 appended messages in their original append order; the
max_turns = 2 scenario from the spec holds; and whenever max_turns >= 1, the
snapshot taken right after add_user("x") ends with the user message "x"
(the max_turns = 0 case is excluded: there the message is trimmed at once). -/
theorem trim_keeps_newest :
    (∀ (mt : Nat) (sp : Option String) (es : List AddEvent),
      (runAdds (mkConversationState mt sp) es).history =
        lastN (mt * 2) (es.map eventMessage)) ∧
    (runAdds (mkConversationState 2 none)
        [AddEvent.user "a1", AddEvent.assistant "b1", AddEvent.user "a2",
         AddEvent.assistant "b2", AddEvent.user "a3"]).history =
      [{ role := Role.assistant, content := "b1" },
       { role := Role.user, content := "a2" },
       { role := Role.assistant, content := "b2" },
       { role := Role.user, content := "a3" }] ∧
    (∀ (s : ConversationState) (x : String), 1 ≤ s.max_turns →
      (get_messages (add_user x s)).getLast? =
        some { role := Role.user, content := x }) := by
  refine ⟨?_, by decide, ?_⟩
  · intro mt sp es
    have h := runAdds_history es (mkConversationState mt sp) (by simp [mkConversationState])
    simpa [mkConversationState] using h
  · intro s x hmt
    have h := add_user_history_getLast s x hmt
    simp only [get_messages]
    cases hh : (add_user x s).history with
    | nil => rw [hh] at h; exact absurd h (by simp)
    | cons a l =>
      rw [hh] at h
      rw [List.getLast?_cons_cons]
      exact h

/-- Closed instance of the conditional part of trim_keeps_newest: with
max_turns = 1, a snapshot right after add_user("x") ends with user:"x". -/
theorem trim_keeps_newest_witness :
    (get_messages (add_user "x" (mkConversationState 1 none))).getLast? =
      some { role := Role.user, content := "x" } :=
  trim_keeps_newest.2.2 (mkConversationState 1 none) "x" (by decide)

/-- Any mutating call the orchestration performs on the state:
add_user, add_assistant, or reset. -/
inductive Event where
  | user (text : String)
  | assistant (text : String)
  | resetCall
deriving DecidableEq, Repr

/-- Apply one call. -/
def stepEvent (s : ConversationState) (e : Event) : ConversationState :=
  match e with
  | Event.user t => add_user t s
  | Event.assistant t => add_assistant t s
  | Event.resetCall => reset s

/-- Apply a sequence of calls, oldest first. -/
def runEvents (s : ConversationState) (es : List Event) : ConversationState :=
  es.foldl stepEvent s

theorem mem_trimGo (mt : Nat) (l : List α) (m : α) (h : m ∈ trimGo mt l) :
    m ∈ l := by
  rw [trimGo_eq_lastN, lastN] at h
  exact List.mem_of_mem_drop h

theorem stepEvent_system_prompt (s : ConversationState) (e : Event) :
    (stepEvent s e).system_prompt = s.system_prompt := by
  cases e <;> rfl

theorem runEvents_system_prompt (s : ConversationState) (es : List Event) :
    (runEvents s es).system_prompt = s.system_prompt := by
  induction es generalizing s with
  | nil => rfl
  | cons e es ih =>
    show (runEvents (stepEvent s e) es).system_prompt = s.system_prompt
    rw [ih, stepEvent_system_prompt]

/-- No call ever puts a system-role message into the history, so every state
reachable from construction has a system-free history. -/
theorem runEvents_no_system (es : List Event) (s : ConversationState)
    (h : ∀ m ∈ s.history, m.role ≠ Role.system) :
    ∀ m ∈ (runEvents s es).history, m.role ≠ Role.system := by
  induction es generalizing s with
  | nil => exact h
  | cons e es ih =>
    show ∀ m ∈ (runEvents (stepEvent s e) es).history, m.role ≠ Role.system
    refine ih (stepEvent s e) ?_
    intro m hm
    cases e with
    | user t =>
      have := mem_trimGo _ _ _ hm
      rcases List.mem_append.1 this with h1 | h1
      · exact h m h1
      · simp only [List.mem_singleton] at h1
        subst h1
        intro hr
        exact Role.noConfusion hr
    | assistant t =>
      have := mem_trimGo _ _ _ hm
      rcases List.mem_append.1 this with h1 | h1
      · exact h m h1
      · simp only [List.mem_singleton] at h1
        subst h1
        intro hr
        exact Role.noConfusion hr
    | resetCall => cases hm

/-- C5: for every reachable ConversationState, get_messages returns the
system message carrying the state's (configured-or-default) prompt followed
by the entire history in order, and it contains exactly one system-role
message, whatever the history length (including empty). -/
theorem snapshot_system_first (mt : Nat) (sp : Option String) (es : List Event) :
    get_messages (runEvents (mkConversationState mt sp) es) =
      { role := Role.system,
        content := (runEvents (mkConversationState mt sp) es).system_prompt } ::
        (runEvents (mkConversationState mt sp) es).history ∧
    (get_messages (runEvents (mkConversationState mt sp) es)).countP
      (fun m => decide (m.role = Role.system)) = 1 ∧
    (runEvents (mkConversationState mt sp) es).system_prompt =
      (mkConversationState mt sp).system_prompt := by
  refine ⟨rfl, ?_, runEvents_system_prompt _ _⟩
  have hns := runEvents_no_system es (mkConversationState mt sp)
    (by intro m hm; cases hm)
  simp only [get_messages, List.countP_cons]
  rw [List.countP_eq_zero.2]
  · simp
  · intro m hm
    simpa using hns m hm

/-- C7: reset is idempotent and has no error conditions (it is total):
resetting twice equals resetting once, and a reset state has empty history
with max_turns and system prompt unchanged. -/
theorem reset_idempotent (s : ConversationState) :
    reset (reset s) = reset s ∧ (reset s).history = [] ∧
    (reset s).max_turns = s.max_turns ∧
    (reset s).system_prompt = s.system_prompt :=
  ⟨rfl, rfl, rfl, rfl⟩

/-! ## Speech-to-text (src/asr.py)

The SpeechRecognition / whisper libraries are external; their observable
outcomes are passed in as values.  Python float constants are modelled as
exact rationals, and str.lower() as ASCII char-wise lowering. -/

/-- Python str.lower(), modelled char-wise on the underlying characters. -/
def pyLower (s : String) : String :=
  ⟨s.data.map Char.toLower⟩

/-- Outcome of recognizer.recognize_google in transcribe_google:
a transcript, sr.UnknownValueError, or sr.RequestError. -/
inductive GoogleRecOutcome where
  | success (text : String)
  | unknownValue
  | requestError (msg : String)
deriving DecidableEq, Repr

/-- transcribe_google from asr.py: a transcript gets confidence 0.8,
UnknownValueError maps to ("", 0.0), RequestError re-raises RuntimeError. -/
def transcribe_google (r : GoogleRecOutcome) : Except String (String × ℚ) :=
  match r with
  | GoogleRecOutcome.success t => Except.ok (t, 4/5)
  | GoogleRecOutcome.unknownValue => Except.ok ("", 0)
  | GoogleRecOutcome.requestError e =>
      Except.error ("Google ASR request error: " ++ e)

/-- Observable fields of a whisper model.transcribe result: the text (None or
a string) and the first segment's no_speech_prob when present. -/
structure WhisperResult where
  text : Option String
  no_speech_prob : Option ℚ
deriving DecidableEq, Repr

/-- Python str.strip() on both ends, modelled char-wise. -/
def pyStrip (s : String) : String :=
  ⟨((s.data.dropWhile Char.isWhitespace).reverse.dropWhile Char.isWhitespace).reverse⟩

/-- transcribe_whisper from asr.py: strips the text and derives confidence
1 - no_speech_prob, defaulting the probability to 0.2. -/
def transcribe_whisper (r : WhisperResult) : String × ℚ :=
  (pyStrip (r.text.getD ""), 1 - r.no_speech_prob.getD (1/5))

/-- The two speech-to-text engines transcribe can dispatch to. -/
inductive SttEngine where
  | google
  | whisper
deriving DecidableEq, Repr

/-- The Python expression (engine or "whisper"): None and the empty string
fall back to "whisper". -/
def engineFallback (engine : Option String) : String :=
  match engine with
  | none => "whisper"
  | some s => if s = "" then "whisper" else s

/-- The dispatch decision of transcribe in asr.py: lowercase the
fallen-back engine name and compare against "google". -/
def selectEngine (engine : Option String) : SttEngine :=
  if pyLower (engineFallback engine) = "google" then SttEngine.google
  else SttEngine.whisper

/-- transcribe from asr.py: dispatch on the engine string; the google engine
may raise, the whisper path returns its result directly. -/
def transcribe (engine : Option String) (g : GoogleRecOutcome)
    (w : WhisperResult) : Except String (String × ℚ) :=
  match selectEngine engine with
  | SttEngine.google => transcribe_google g
  | SttEngine.whisper => Except.ok (transcribe_whisper w)

/-- C8: recognition failure is a normal outcome — transcribe_google maps
UnknownValueError to ok ("", 0) — while a request/transport failure raises
an error; and transcribe with engine "google" passes the single engine
result through verbatim (no retry, no transformation). -/
theorem transcribe_failure_policy :
    transcribe_google GoogleRecOutcome.unknownValue = Except.ok ("", 0) ∧
    (∀ t, transcribe_google (GoogleRecOutcome.success t) = Except.ok (t, 4/5)) ∧
    (∀ e, transcribe_google (GoogleRecOutcome.requestError e) =
      Except.error ("Google ASR request error: " ++ e)) ∧
    (∀ g w, transcribe (some "google") g w = transcribe_google g) :=
  ⟨rfl, fun _ => rfl, fun _ => rfl, fun _ _ => rfl⟩

/-- C9: only an engine string that lowercases to "google" selects the Google
engine; every other value — None and the empty string included — selects the
whisper engine, and unknown engine names never raise.  The final conjunct
records that transcribe is total on the dispatch decision. -/
theorem transcribe_engine_dispatch :
    (∀ o, selectEngine o = SttEngine.google ↔
      ∃ s, o = some s ∧ pyLower s = "google") ∧
    selectEngine none = SttEngine.whisper ∧
    selectEngine (some "") = SttEngine.whisper ∧
    (∀ s, pyLower s ≠ "google" → selectEngine (some s) = SttEngine.whisper) ∧
    (∀ o g w, selectEngine o = SttEngine.whisper →
      transcribe o g w = Except.ok (transcribe_whisper w)) := by
  have hne : ∀ s, pyLower s ≠ "google" → selectEngine (some s) = SttEngine.whisper := by
    intro s h
    by_cases he : s = ""
    · subst he; rfl
    · simp only [selectEngine, engineFallback, if_neg he, if_neg h]
  refine ⟨?_, rfl, rfl, hne, ?_⟩
  · intro o
    constructor
    · intro h
      cases o with
      | none => exact absurd h (by decide)
      | some s =>
        refine ⟨s, rfl, ?_⟩
        by_contra hg
        rw [hne s hg] at h
        exact SttEngine.noConfusion h
    · rintro ⟨s, rfl, hg⟩
      have he : s ≠ "" := by
        intro he; subst he; exact absurd hg (by decide)
      simp [selectEngine, engineFallback, he, hg]
  · intro o g w h
    simp only [transcribe, h]

/-- Closed instance of transcribe_engine_dispatch: the unknown engine name
"Vosk" falls back to the whisper engine and transcribe returns its result. -/
theorem transcribe_engine_dispatch_witness :
    transcribe (some "Vosk") (GoogleRecOutcome.requestError "down")
        { text := some " hi ", no_speech_prob := none } =
      Except.ok ("hi", 4/5) := by
  have h := transcribe_engine_dispatch.2.2.2.2 (some "Vosk")
    (GoogleRecOutcome.requestError "down")
    { text := some " hi ", no_speech_prob := none }
    (transcribe_engine_dispatch.2.2.2.1 "Vosk" (by decide))
  rw [h]
  show Except.ok (pyStrip " hi ", 1 - (1/5 : ℚ)) = Except.ok ("hi", 4/5)
  norm_num
  decide

/-! ## Reply generation (src/llm.py)

The transformers pipeline and the ollama HTTP service are external; the
generation step is passed in as a function from the built prompt to the raw
generated text. -/

/-- The prompt-building loop of chat_hf: system messages are skipped, user
messages get a User line prefixed, every other role an Assistant line,
and a trailing generation cue is appended. -/
def build_hf_prompt (messages : List Message) : String :=
  (messages.foldl
    (fun acc m =>
      match m.role with
      | Role.system => acc
      | Role.user => acc ++ "User: " ++ m.content ++ "\n"
      | Role.assistant => acc ++ "Assistant: " ++ m.content ++ "\n")
    "") ++ "Assistant: "

/-- The characters after the first occurrence of sep, none when sep does not
occur. -/
def afterFirstSub (sep : List Char) : List Char → Option (List Char)
  | [] => none
  | c :: rest =>
      if sep.isPrefixOf (c :: rest) then some ((c :: rest).drop sep.length)
      else afterFirstSub sep rest

/-- Python s.split(sep, 1)[-1]: everything after the first occurrence of sep,
or the whole string when sep does not occur. -/
def pySplit1Last (sep s : String) : String :=
  match afterFirstSub sep.data s.data with
  | some tail => ⟨tail⟩
  | none => s

/-- chat_hf from llm.py: generate from the built prompt, keep what follows
the first "Assistant:" marker, strip it. -/
def chat_hf (gen : String → String) (messages : List Message) : String :=
  pyStrip (pySplit1Last "Assistant:" (gen (build_hf_prompt messages)))

/-- The two reply backends chat can dispatch to. -/
inductive LlmBackend where
  | hf
  | ollama
deriving DecidableEq, Repr

/-- The dispatch decision of chat in llm.py: os.environ.get("LLM_BACKEND",
"hf").lower(), compared against "hf". -/
def chat_backend (env : Option String) : LlmBackend :=
  if pyLower (env.getD "hf") = "hf" then LlmBackend.hf else LlmBackend.ollama

/-- C10: the HF prompt builder ignores system-role messages entirely — the
prompt over any message list equals the prompt over its non-system messages,
and prepending a system message (the DialogueState system prompt) leaves the
chat_hf reply unchanged for every generation function; and with LLM_BACKEND
unset, chat dispatches to the HF backend. -/
theorem chat_hf_skips_system :
    (∀ messages : List Message,
      build_hf_prompt messages =
        build_hf_prompt
          (messages.filter (fun m => !(decide (m.role = Role.system))))) ∧
    (∀ (gen : String → String) (c : String) (rest : List Message),
      chat_hf gen ({ role := Role.system, content := c } :: rest) =
        chat_hf gen rest) ∧
    chat_backend none = LlmBackend.hf := by
  have hfold : ∀ (messages : List Message) (acc : String),
      messages.foldl
        (fun acc m =>
          match m.role with
          | Role.system => acc
          | Role.user => acc ++ "User: " ++ m.content ++ "\n"
          | Role.assistant => acc ++ "Assistant: " ++ m.content ++ "\n")
        acc =
      (messages.filter (fun m => !(decide (m.role = Role.system)))).foldl
        (fun acc m =>
          match m.role with
          | Role.system => acc
          | Role.user => acc ++ "User: " ++ m.content ++ "\n"
          | Role.assistant => acc ++ "Assistant: " ++ m.content ++ "\n")
        acc := by
    intro messages
    induction messages with
    | nil => intro acc; rfl
    | cons m rest ih =>
      intro acc
      cases hr : m.role <;> simp [List.filter_cons, List.foldl_cons, hr] <;>
        exact ih _
  refine ⟨?_, ?_, rfl⟩
  · intro messages
    simp only [build_hf_prompt]
    rw [hfold]
  · intro gen c rest
    simp only [chat_hf, build_hf_prompt, List.foldl_cons]

/-! ## Endpoint orchestration (main.py)

The endpoints act on the single shared ConversationState; the external
chat/synthesis calls are passed in as functions whose failures are Except
errors (a Python exception propagates out of the endpoint, leaving every
state mutation already committed in place). -/

/-- main.py reply_endpoint: append the user text, call chat on the snapshot
taken after that append, append the reply and return it; if chat raises,
the exception propagates and the state keeps the committed user append. -/
def reply_endpoint (chatFn : List Message → Except String String)
    (text : String) (s : ConversationState) :
    Except String String × ConversationState :=
  let s1 := add_user text s
  match chatFn (get_messages s1) with
  | Except.ok r => (Except.ok r, add_assistant r s1)
  | Except.error e => (Except.error e, s1)

/-- main.py asr_endpoint: transcribe the uploaded audio with the selected
engine; the ConversationState is never touched. -/
def asr_endpoint (engine : Option String) (g : GoogleRecOutcome)
    (w : WhisperResult) (s : ConversationState) :
    Except String (String × ℚ) × ConversationState :=
  (transcribe engine g w, s)

/-- main.py speak_endpoint: synthesize audio from the text; the
ConversationState is never touched. -/
def speak_endpoint (synthFn : String → Except String (List Nat))
    (text : String) (s : ConversationState) :
    Except String (List Nat) × ConversationState :=
  (synthFn text, s)

/-- main.py reset endpoint: clears the state, answers ok. -/
def reset_endpoint (s : ConversationState) : Bool × ConversationState :=
  (true, reset s)

/-- C3: when the reply backend answers r on the snapshot taken after the
user append, reply_endpoint returns r and the final state is exactly the
user append followed by the assistant append of r; and the transcribe and
speak endpoints leave the ConversationState unchanged, so among the
non-reset operations only reply_endpoint mutates it. -/
theorem reply_endpoint_spec :
    (∀ (chatFn : List Message → Except String String) (text : String)
        (s : ConversationState) (r : String),
      chatFn (get_messages (add_user text s)) = Except.ok r →
        reply_endpoint chatFn text s =
          (Except.ok r, add_assistant r (add_user text s))) ∧
    (∀ engine g w s, (asr_endpoint engine g w s).2 = s) ∧
    (∀ synthFn text s, (speak_endpoint synthFn text s).2 = s) := by
  refine ⟨?_, fun _ _ _ _ => rfl, fun _ _ _ => rfl⟩
  intro chatFn text s r h
  simp only [reply_endpoint, h]

/-- Closed instance of reply_endpoint_spec at a concrete backend and state. -/
theorem reply_endpoint_spec_witness :
    reply_endpoint (fun _ => Except.ok "hello") "hi" (mkConversationState 8 none) =
      (Except.ok "hello",
        add_assistant "hello" (add_user "hi" (mkConversationState 8 none))) :=
  reply_endpoint_spec.1 (fun _ => Except.ok "hello") "hi"
    (mkConversationState 8 none) "hello" rfl

/-- C4: when the reply backend raises, reply_endpoint surfaces exactly that
error and the final state is the post-user-append state: the user message is
not rolled back and no assistant message is appended; when max_turns >= 1
the surviving history indeed ends with that user message. -/
theorem reply_endpoint_failure :
    ∀ (chatFn : List Message → Except String String) (text : String)
      (s : ConversationState) (e : String),
      chatFn (get_messages (add_user text s)) = Except.error e →
        reply_endpoint chatFn text s = (Except.error e, add_user text s) ∧
        (1 ≤ s.max_turns →
          ((reply_endpoint chatFn text s).2).history.getLast? =
            some { role := Role.user, content := text }) := by
  intro chatFn text s e h
  have heq : reply_endpoint chatFn text s = (Except.error e, add_user text s) := by
    simp only [reply_endpoint, h]
  refine ⟨heq, fun hmt => ?_⟩
  rw [heq]
  exact add_user_history_getLast s text hmt

/-- Closed instance of reply_endpoint_failure: an unreachable backend leaves
the error surfaced and the ghost user message in history. -/
theorem reply_endpoint_failure_witness :
    reply_endpoint (fun _ => Except.error "service unavailable") "hi"
        (mkConversationState 8 none) =
      (Except.error "service unavailable",
        add_user "hi" (mkConversationState 8 none)) ∧
    ((reply_endpoint (fun _ => Except.error "service unavailable") "hi"
        (mkConversationState 8 none)).2).history.getLast? =
      some { role := Role.user, content := "hi" } :=
  ⟨(reply_endpoint_failure (fun _ => Except.error "service unavailable") "hi"
      (mkConversationState 8 none) "service unavailable" rfl).1,
   (reply_endpoint_failure (fun _ => Except.error "service unavailable") "hi"
      (mkConversationState 8 none) "service unavailable" rfl).2 (by decide)⟩

/-! ## Sharing between snapshots and the internal history (C6)

get_messages builds a fresh Python list, but the list(self.history) step
copies only the references to the message dicts; the dicts themselves stay
shared between the returned snapshot and the internal deque.  To settle the
defensive-copy claim this aspect is modelled with an explicit store: message
dicts are cells addressed by allocation index, and both the deque and the
snapshot hold addresses. -/

/-- Address of an allocated message dict. -/
abbrev Addr := Nat

/-- The heap of message dicts, addressed by allocation index. -/
abbrev Store := List Message

/-- Allocate a fresh message dict. -/
def alloc (st : Store) (m : Message) : Store × Addr :=
  (st ++ [m], st.length)

/-- ConversationState with the history as references into the store. -/
structure HConversationState where
  max_turns : Nat
  system_prompt : String
  history : List Addr
deriving DecidableEq, Repr

/-- Constructor, as mkConversationState. -/
def hMkConversationState (max_turns : Nat) (system_prompt : Option String) :
    HConversationState :=
  { max_turns := max_turns
    system_prompt :=
      match system_prompt with
      | none => defaultSystemPrompt
      | some s => if s = "" then defaultSystemPrompt else s
    history := [] }

/-- add_user over the store: allocate the dict, append its address, trim. -/
def hAddUser (text : String) :
    HConversationState × Store → HConversationState × Store
  | (s, st) =>
    let p := alloc st { role := Role.user, content := text }
    ({ s with history := trimGo s.max_turns (s.history ++ [p.2]) }, p.1)

/-- get_messages over the store: the system dict is freshly allocated, the
returned list is fresh, but its tail holds the history's own addresses. -/
def hGetMessages (x : HConversationState × Store) : List Addr × Store :=
  let p := alloc x.2 { role := Role.system, content := x.1.system_prompt }
  (p.2 :: x.1.history, p.1)

/-- A caller mutating a message dict in place through a reference. -/
def storeWrite (st : Store) (a : Addr) (m : Message) : Store :=
  st.set a m

/-- The conversation content observable through the internal history. -/
def readHistory (s : HConversationState) (st : Store) : List (Option Message) :=
  s.history.map (fun a => st[a]?)

/-- C6 counterexample: after add_user("x") on a fresh state, the snapshot is
[1, 0] with address 0 shared with the internal history; a caller mutating
the dict at address 0 obtained from the snapshot changes the content
observable through the internal history, so the snapshot is not a defensive
copy at the element level. -/
theorem snapshot_not_defensive_counterexample :
    (hGetMessages (hAddUser "x" (hMkConversationState 8 none, []))).1 = [1, 0] ∧
    0 ∈ (hGetMessages (hAddUser "x" (hMkConversationState 8 none, []))).1 ∧
    readHistory (hAddUser "x" (hMkConversationState 8 none, [])).1
      (hGetMessages (hAddUser "x" (hMkConversationState 8 none, []))).2 =
      [some { role := Role.user, content := "x" }] ∧
    readHistory (hAddUser "x" (hMkConversationState 8 none, [])).1
      (storeWrite
        (hGetMessages (hAddUser "x" (hMkConversationState 8 none, []))).2 0
        { role := Role.user, content := "mutated" }) =
      [some { role := Role.user, content := "mutated" }] := by
  decide

/-- C6 amended: the returned snapshot list is fresh and its head is a freshly
allocated system dict — so mutating it, or any other dict not referenced by
the history, never changes the internal history, and taking a snapshot
itself changes nothing observable — but the snapshot's tail holds exactly
the history's own addresses, so in-place mutation of one of those elements
does reach the internal history (see the counterexample). -/
theorem snapshot_aliasing :
    (∀ (s : HConversationState) (st : Store) (a : Addr) (m : Message),
      a ∉ s.history → readHistory s (storeWrite st a m) = readHistory s st) ∧
    (∀ (s : HConversationState) (st : Store),
      (∀ b ∈ s.history, b < st.length) →
        (hGetMessages (s, st)).1 = st.length :: s.history ∧
        st.length ∉ s.history ∧
        readHistory s (hGetMessages (s, st)).2 = readHistory s st) := by
  constructor
  · intro s st a m ha
    simp only [readHistory, storeWrite]
    refine List.map_congr_left ?_
    intro b hb
    exact List.getElem?_set_ne (fun he => ha (by rw [he]; exact hb))
  · intro s st h
    refine ⟨rfl, fun hmem => absurd (h _ hmem) (lt_irrefl _), ?_⟩
    simp only [readHistory, hGetMessages, alloc]
    refine List.map_congr_left ?_
    intro b hb
    rw [List.getElem?_append, if_pos (h b hb)]

/-- Closed instance of snapshot_aliasing: mutating the freshly allocated
system dict (address 1) of the snapshot leaves the internal history
unchanged, since address 1 is not referenced by the history. -/
theorem snapshot_aliasing_witness :
    readHistory (hAddUser "x" (hMkConversationState 8 none, [])).1
      (storeWrite
        (hGetMessages (hAddUser "x" (hMkConversationState 8 none, []))).2 1
        { role := Role.system, content := "changed" }) =
      readHistory (hAddUser "x" (hMkConversationState 8 none, [])).1
        (hGetMessages (hAddUser "x" (hMkConversationState 8 none, []))).2 :=
  snapshot_aliasing.1 (hAddUser "x" (hMkConversationState 8 none, [])).1
    (hGetMessages (hAddUser "x" (hMkConversationState 8 none, []))).2 1
    { role := Role.system, content := "changed" } (by decide)
